import Mathlib

/-!
Verification of the Staff repository (a StoryGraph scraping client).

The repository exists in two near-identical revisions: a single-file script
(`staff.py`) and a package (`staff/api.py`, `staff/client.py`,
`staff/models.py`).  The definitions below are a shallow embedding of the
pure decision logic of both revisions: HTTP transport and HTML parsing are
external collaborators, so a parsed page is represented by the data the code
actually inspects (meta tags, form fields, links), and an HTTP side effect is
represented by the request value the code would have issued.
-/

namespace Staff

/-- The exceptions the code can raise: `sg msg` is `StoryGraphError(msg)`
(`StoryGraphAPI.Error` in the single-file revision), `value` stands for a
`ValueError` escaping from library code such as `Status(...)`. -/
inductive PyErr
  | sg (msg : String)
  | value
deriving DecidableEq, Repr

/-- Python truthiness of an optional string: `None` and `""` are falsy. -/
def truthy : Option String → Bool
  | none => false
  | some s => !(s == "")

/-- The parts of a parsed page that `StoryGraphAPI.html` inspects: the
`content` attribute of the `csrf-param` / `csrf-token` meta tags, when the
tag is present (`some ""` means the tag exists with empty content). -/
structure PageMeta where
  csrfParam : Option String
  csrfToken : Option String
deriving DecidableEq, Repr

/-- The CSRF-related state of a `StoryGraphAPI` instance: the
`_csrf_param` / `_csrf_token` attributes. -/
structure ApiState where
  csrfParam : Option String
  csrfToken : Option String
deriving DecidableEq, Repr

namespace StoryGraphAPI

/-- `StoryGraphAPI.html` (api.py lines 39-45): parsing a response stores the
`csrf-param` and `csrf-token` meta contents whenever the meta tag is present
(a found `Tag` is always truthy under the walrus test, even with empty
content). -/
def html (st : ApiState) (page : PageMeta) : ApiState where
  csrfParam := match page.csrfParam with
    | some c => some c
    | none => st.csrfParam
  csrfToken := match page.csrfToken with
    | some c => some c
    | none => st.csrfToken

/-- The tail both `csrf` revisions share (api.py lines 50-54, staff.py lines
62-66): if the token attribute is still falsy raise, otherwise return it and
reset the attribute to `None`. -/
def consume (st : ApiState) : Except PyErr (String × ApiState) :=
  match st.csrfToken with
  | some t => if t = "" then .error (.sg "No CSRF token")
              else .ok (t, { st with csrfToken := none })
  | none => .error (.sg "No CSRF token")

/-- `StoryGraphAPI.csrf`, package revision (api.py lines 47-54).  When no
token is cached (`not self._csrf_token`), the root page is fetched AND parsed
(`self.html(self.get("/"))`); `rootPage` is the meta data of that response. -/
def csrf (st : ApiState) (rootPage : PageMeta) : Except PyErr (String × ApiState) :=
  consume (if truthy st.csrfToken then st else html st rootPage)

end StoryGraphAPI

namespace Single

/-- `StoryGraphAPI.csrf`, single-file revision (staff.py lines 59-66).  When
no token is cached it does `self.get("/")` WITHOUT passing the response
through `self.html`, so the fetched root page is never parsed and the state
reaching the token check is unchanged. -/
def csrf (st : ApiState) (_rootPage : PageMeta) : Except PyErr (String × ApiState) :=
  StoryGraphAPI.consume st

end Single

/-- Helper: `consume` errors exactly on a falsy token attribute. -/
theorem consume_error_iff (st : ApiState) :
    StoryGraphAPI.consume st = .error (.sg "No CSRF token") ↔
      truthy st.csrfToken = false := by
  cases h : st.csrfToken with
  | none => simp [StoryGraphAPI.consume, h, truthy]
  | some t =>
    by_cases ht : t = "" <;> simp [StoryGraphAPI.consume, h, truthy, ht]

/-- Helper: full characterisation of a successful `consume`. -/
theorem consume_ok_iff (st st' : ApiState) (t : String) :
    StoryGraphAPI.consume st = .ok (t, st') ↔
      st.csrfToken = some t ∧ t ≠ "" ∧ st' = { st with csrfToken := none } := by
  cases h : st.csrfToken with
  | none => simp [StoryGraphAPI.consume, h]
  | some u =>
    by_cases hu : u = "" <;>
      simp only [StoryGraphAPI.consume, h, hu, if_true, if_false, reduceIte] <;>
      constructor
    · intro hfalse; exact absurd hfalse (by simp)
    · rintro ⟨h1, h2, h3⟩
      exact absurd (Option.some_injective _ h1).symm (hu ▸ h2)
    · intro hok
      have h1 := (Prod.mk.injEq _ _ _ _).mp (Except.ok.inj hok)
      exact ⟨h1.1 ▸ rfl, h1.1 ▸ hu, h1.2.symm⟩
    · rintro ⟨h1, h2, h3⟩
      rw [Option.some_inj] at h1
      rw [h1, h3]

end Staff

namespace Staff

/-- Helper: a successful package `csrf` call leaves the token cache empty. -/
theorem csrf_ok_clears (st : ApiState) (page : PageMeta) (t : String)
    (st' : ApiState) (h : StoryGraphAPI.csrf st page = .ok (t, st')) :
    st'.csrfToken = none := by
  rw [StoryGraphAPI.csrf] at h
  rcases (consume_ok_iff _ _ _).mp h with ⟨-, -, h3⟩
  rw [h3]

/-- C2: `StoryGraphAPI.csrf` (package revision) raises "No CSRF token" iff no
token is cached and the fetched root page leaves none; with a cached token it
returns it and clears the cache; after any successful call the cache is
empty, so a second call can only return a token freshly supplied by the root
page it parses (never the already-consumed one). -/
theorem csrf_lifecycle (st : ApiState) (page : PageMeta) :
    (StoryGraphAPI.csrf st page = .error (.sg "No CSRF token") ↔
      truthy st.csrfToken = false ∧
      truthy (StoryGraphAPI.html st page).csrfToken = false) ∧
    (∀ t, st.csrfToken = some t → truthy st.csrfToken = true →
      StoryGraphAPI.csrf st page = .ok (t, { st with csrfToken := none })) ∧
    (∀ t st', StoryGraphAPI.csrf st page = .ok (t, st') →
      st'.csrfToken = none ∧
      ∀ page2 t2 st2, StoryGraphAPI.csrf st' page2 = .ok (t2, st2) →
        page2.csrfToken = some t2) := by
  refine ⟨?_, ?_, ?_⟩
  · rw [StoryGraphAPI.csrf, consume_error_iff]
    by_cases h : truthy st.csrfToken = true
    · simp [h]
    · simp only [Bool.not_eq_true] at h
      simp [h]
  · intro t ht htr
    rw [StoryGraphAPI.csrf, if_pos htr, consume_ok_iff]
    have hne : t ≠ "" := by
      rw [ht] at htr
      simpa [truthy] using htr
    exact ⟨ht, hne, rfl⟩
  · intro t st' h
    have hclear : st'.csrfToken = none := csrf_ok_clears st page t st' h
    rw [StoryGraphAPI.csrf] at h
    refine ⟨hclear, ?_⟩
    intro page2 t2 st2 h2
    rw [StoryGraphAPI.csrf, if_neg (by simp [hclear, truthy])] at h2
    rcases ((consume_ok_iff _ _ _).mp h2) with ⟨h1, -, -⟩
    rw [StoryGraphAPI.html] at h1
    cases hp : page2.csrfToken with
    | none => rw [hp, hclear] at h1; exact absurd h1 (by simp)
    | some c => rw [hp] at h1; simpa using h1

/-- Witness for `csrf_lifecycle` at a concrete state and page. -/
theorem csrf_lifecycle_witness :
    StoryGraphAPI.csrf ⟨some "authenticity_token", some "tok"⟩ ⟨none, none⟩ =
      .ok ("tok", ⟨some "authenticity_token", none⟩) :=
  (csrf_lifecycle ⟨some "authenticity_token", some "tok"⟩ ⟨none, none⟩).2.1
    "tok" rfl (by decide)

/-- C3 counterexample: with an empty token cache and a root page whose meta
tags do carry a token, the package revision returns that token while the
single-file revision (whose `self.get("/")` discards the response without
parsing it) raises "No CSRF token" — the two revisions are not behaviourally
equivalent. -/
theorem csrf_revisions_differ :
    Single.csrf ⟨none, none⟩ ⟨none, some "tok"⟩ =
        .error (.sg "No CSRF token") ∧
    StoryGraphAPI.csrf ⟨none, none⟩ ⟨none, some "tok"⟩ =
        .ok ("tok", ⟨none, none⟩) := by
  constructor <;> rfl

/-- C3 amended: the two `csrf` revisions agree whenever a (truthy) token is
already cached; when none is cached the single-file revision always raises
"No CSRF token" regardless of the root-page response, while the package
revision recovers exactly when the parsed root page supplies a token. -/
theorem csrf_revisions_equiv_cached :
    (∀ st page, truthy st.csrfToken = true →
      Single.csrf st page = StoryGraphAPI.csrf st page) ∧
    (∀ st page, truthy st.csrfToken = false →
      Single.csrf st page = .error (.sg "No CSRF token")) := by
  constructor
  · intro st page h
    rw [Single.csrf, StoryGraphAPI.csrf, if_pos h]
  · intro st page h
    rw [Single.csrf, consume_error_iff]
    exact h

/-- Witness for `csrf_revisions_equiv_cached` at concrete states. -/
theorem csrf_revisions_equiv_cached_witness :
    Single.csrf ⟨none, some "t0"⟩ ⟨none, some "t1"⟩ =
        StoryGraphAPI.csrf ⟨none, some "t0"⟩ ⟨none, some "t1"⟩ ∧
    Single.csrf ⟨none, none⟩ ⟨none, some "t1"⟩ =
        .error (.sg "No CSRF token") :=
  ⟨csrf_revisions_equiv_cached.1 ⟨none, some "t0"⟩ ⟨none, some "t1"⟩ (by decide),
   csrf_revisions_equiv_cached.2 ⟨none, none⟩ ⟨none, some "t1"⟩ (by decide)⟩

/-- The parts of a fetched page that `StoryGraphAPI.paged` inspects:
`container` is `some divs` when an element with the requested container class
exists, with `divs` the list of its direct `div` children in document order
(each child stands for the `Tag` a model instance is built from); `nextLink`
is the `href` of the element with id `next_link` when such a tag exists. -/
structure PageDoc (D : Type) where
  container : Option (List D)
  nextLink : Option String

namespace StoryGraphAPI

/-- `StoryGraphAPI.paged` (api.py lines 80-91) as a fuel-indexed run of the
generator's loop over an environment `fetch` mapping paths to fetched pages:
`some out` means the loop finished within the fuel having yielded `out`
(one model instance per direct div child of each page's container, in
order); `none` means the fuel ran out before the loop stopped. -/
def paged (fetch : String → PageDoc D) : Nat → String → Option (List D)
  | 0, _ => none
  | n + 1, path =>
    let page := fetch path
    match page.container with
    | none => some []
    | some divs =>
      match page.nextLink with
      | none => some divs
      | some href => (paged fetch n href).map (divs ++ ·)

end StoryGraphAPI

/-- C4: per fetched page, `paged` stops yielding nothing when the container
class is absent, yields the container's direct div children in document
order, stops after them when there is no `next_link`, and otherwise
continues from the next link's href prepending this page's items; when every
reachable page has both a container and a next link the loop never
terminates (no fuel suffices). -/
theorem paged_pagination {D : Type} (fetch : String → PageDoc D)
    (n : Nat) (path : String) :
    ((fetch path).container = none →
      StoryGraphAPI.paged fetch (n + 1) path = some []) ∧
    (∀ divs, (fetch path).container = some divs → (fetch path).nextLink = none →
      StoryGraphAPI.paged fetch (n + 1) path = some divs) ∧
    (∀ divs href, (fetch path).container = some divs →
      (fetch path).nextLink = some href →
      StoryGraphAPI.paged fetch (n + 1) path =
        (StoryGraphAPI.paged fetch n href).map (divs ++ ·)) ∧
    ((∀ p, (fetch p).container ≠ none ∧ (fetch p).nextLink ≠ none) →
      ∀ m q, StoryGraphAPI.paged fetch m q = none) := by
  refine ⟨?_, ?_, ?_, ?_⟩
  · intro h
    rw [StoryGraphAPI.paged, h]
  · intro divs h1 h2
    rw [StoryGraphAPI.paged, h1, h2]
  · intro divs href h1 h2
    rw [StoryGraphAPI.paged, h1, h2]
  · intro hall m
    induction m with
    | zero => intro q; rfl
    | succ k ih =>
      intro q
      obtain ⟨hc, hn⟩ := hall q
      rw [StoryGraphAPI.paged]
      cases h1 : (fetch q).container with
      | none => exact absurd h1 hc
      | some divs =>
        cases h2 : (fetch q).nextLink with
        | none => exact absurd h2 hn
        | some href => simp [ih href]

/-- Witness for `paged_pagination` on a concrete two-page environment. -/
theorem paged_pagination_witness :
    StoryGraphAPI.paged
        (fun p => if p = "/a" then ⟨some [1, 2], some "/b"⟩
                  else (⟨some [3], none⟩ : PageDoc Nat)) 2 "/a" =
      (StoryGraphAPI.paged
        (fun p => if p = "/a" then ⟨some [1, 2], some "/b"⟩
                  else (⟨some [3], none⟩ : PageDoc Nat)) 1 "/b").map
        ([1, 2] ++ ·) :=
  (paged_pagination
      (fun p => if p = "/a" then ⟨some [1, 2], some "/b"⟩
                else (⟨some [3], none⟩ : PageDoc Nat)) 1 "/a").2.2.1
    [1, 2] "/b" rfl rfl

/-! ### Form reconstruction (`StoryGraphAPI.form`) -/

/-- The three element types `form` harvests, in harvest order. -/
inductive FType
  | input
  | select
  | button
deriving DecidableEq, Repr

/-- A field element inside a form tag: an `input` or `button` with its
optional `name` and `value` attributes, or a `select` with its optional
`name` attribute and, when `find("option", selected=True)` succeeds, the
first selected option's optional `value` attribute. -/
inductive FieldElem
  | input (nm : Option String) (value : Option String)
  | select (nm : Option String) (selected : Option (Option String))
  | button (nm : Option String) (value : Option String)
deriving DecidableEq, Repr

/-- The element's `name` attribute. -/
def FieldElem.name : FieldElem → Option String
  | .input n _ => n
  | .select n _ => n
  | .button n _ => n

/-- The element's tag type. -/
def FieldElem.kind : FieldElem → FType
  | .input _ _ => .input
  | .select _ _ => .select
  | .button _ _ => .button

/-- The default value the loop body of `form` computes for an element
(api.py lines 68-76): `field.get("value", "")` for input and button, the
selected option's `option.get("value", "")` for a select, and `none` when a
select has no selected option (the `continue` branch). -/
def FieldElem.harvested : FieldElem → Option String
  | .input _ v => some (v.getD "")
  | .button _ v => some (v.getD "")
  | .select _ none => none
  | .select _ (some ov) => some (ov.getD "")

abbrev Fields := List FieldElem

/-- `form.find_all(type_, {"name": True})`: the elements of one tag type
carrying a name attribute, in document order. -/
def namedOfKind (fs : Fields) (k : FType) : Fields :=
  fs.filter (fun f => f.kind == k && f.name.isSome)

/-- The sequence of fields visited by the nested loops of `form`: all named
inputs, then all named selects, then all named buttons. -/
def harvestList (fs : Fields) : Fields :=
  namedOfKind fs .input ++ namedOfKind fs .select ++ namedOfKind fs .button

/-- A Python dict with string keys in insertion order. -/
abbrev Dict := List (String × String)

/-- `data.setdefault(name, value)`: insert only when the key is absent. -/
def setdefault (d : Dict) (k v : String) : Dict :=
  match d.lookup k with
  | some _ => d
  | none => d ++ [(k, v)]

/-- One iteration of the harvest loop applied to the data dict. -/
def applyField (d : Dict) (f : FieldElem) : Dict :=
  match f.name, f.harvested with
  | some n, some v => setdefault d n v
  | _, _ => d

/-- The parts of a form tag that `form` reads: the `action` attribute and
the field elements. -/
structure FormTag where
  action : String
  fields : Fields
deriving DecidableEq, Repr

/-- The POST request issued by `form`: target path and data dict. -/
structure PostReq where
  path : String
  data : Dict
deriving DecidableEq, Repr

/-- `StoryGraphAPI.form` (api.py lines 63-78): harvest default values into
the caller-supplied data dict via `setdefault`, then post to the form's
`action`.  (`if not data: data = {}` makes a missing dict the empty one.) -/
def StoryGraphAPI.form (f : FormTag) (data0 : Dict) : PostReq :=
  ⟨f.action, (harvestList f.fields).foldl applyField data0⟩

/-- Helper: `List.lookup` distributes over append. -/
theorem lookup_append (l₁ l₂ : Dict) (k : String) :
    (l₁ ++ l₂).lookup k = ((l₁.lookup k).orElse fun _ => l₂.lookup k) := by
  induction l₁ with
  | nil => rfl
  | cons p t ih =>
    obtain ⟨k', v'⟩ := p
    by_cases h : k == k' <;> simp [List.lookup, h, ih]

/-- Helper: `setdefault` never changes the binding of a key already bound. -/
theorem setdefault_preserve (d : Dict) (k v k' : String) (w : String)
    (h : d.lookup k' = some w) : (setdefault d k v).lookup k' = some w := by
  rw [setdefault]
  cases hk : d.lookup k with
  | some u => exact h
  | none => rw [lookup_append, h]; rfl

/-- Helper: `setdefault` leaves the binding of every other key alone. -/
theorem setdefault_other (d : Dict) (k v k' : String) (h : k' ≠ k) :
    (setdefault d k v).lookup k' = d.lookup k' := by
  rw [setdefault]
  cases hk : d.lookup k with
  | some u => rfl
  | none =>
    rw [lookup_append]
    cases hk' : d.lookup k' with
    | some w => rfl
    | none =>
      have hb : (k' == k) = false := beq_eq_false_iff_ne.mpr h
      simp [List.lookup, hb]

/-- Helper: `setdefault` on an absent key appends the binding. -/
theorem setdefault_absent (d : Dict) (k v : String) (h : d.lookup k = none) :
    (setdefault d k v).lookup k = some v := by
  rw [setdefault, h, lookup_append, h]
  simp [List.lookup]

/-- Helper: one harvest step preserves existing bindings. -/
theorem applyField_preserve (d : Dict) (f : FieldElem) (k w : String)
    (h : d.lookup k = some w) : (applyField d f).lookup k = some w := by
  rw [applyField]
  cases hn : f.name with
  | none => exact h
  | some n =>
    cases hv : f.harvested with
    | none => exact h
    | some v => exact setdefault_preserve d n v k w h

/-- Helper: the whole harvest fold preserves existing bindings. -/
theorem foldl_preserve (fs : Fields) (d : Dict) (k w : String)
    (h : d.lookup k = some w) :
    (fs.foldl applyField d).lookup k = some w := by
  induction fs generalizing d with
  | nil => exact h
  | cons f t ih => exact ih _ (applyField_preserve d f k w h)

/-- Helper: a harvest step by a field that does not bind `k` (wrong name, or
a select with no selected option) leaves `k`'s binding alone. -/
theorem applyField_skip (d : Dict) (f : FieldElem) (k : String)
    (h : f.name ≠ some k ∨ f.harvested = none) :
    (applyField d f).lookup k = d.lookup k := by
  rw [applyField]
  cases hn : f.name with
  | none => rfl
  | some n =>
    cases hv : f.harvested with
    | none => rfl
    | some v =>
      rcases h with h | h
      · exact setdefault_other d n v k fun he => h (he ▸ hn)
      · exact absurd (hv ▸ h) (by simp)

/-- Helper: a fold over fields none of which binds `k` leaves `k` alone. -/
theorem foldl_skip (fs : Fields) (d : Dict) (k : String)
    (h : ∀ f ∈ fs, f.name ≠ some k ∨ f.harvested = none) :
    (fs.foldl applyField d).lookup k = d.lookup k := by
  induction fs generalizing d with
  | nil => rfl
  | cons f t ih =>
    rw [List.foldl_cons, ih _ (fun g hg => h g (List.mem_cons_of_mem f hg)),
      applyField_skip d f k (h f (List.mem_cons_self f t))]

/-- Helper: when every field named `n` harvests the same default `v` and `n`
is initially absent, the fold binds `n` to `v`. -/
theorem foldl_found (fs : Fields) (d : Dict) (n v : String) (g : FieldElem)
    (hd : d.lookup n = none) (hmem : g ∈ fs) (hname : g.name = some n)
    (hagree : ∀ g' ∈ fs, g'.name = some n → g'.harvested = some v) :
    (fs.foldl applyField d).lookup n = some v := by
  induction fs generalizing d with
  | nil => exact absurd hmem (List.not_mem_nil g)
  | cons f t ih =>
    rw [List.foldl_cons]
    by_cases hf : f.name = some n
    · have hfv : f.harvested = some v := hagree f (List.mem_cons_self f t) hf
      have happ : (applyField d f).lookup n = some v := by
        rw [applyField, hf, hfv]
        exact setdefault_absent d n v hd
      exact foldl_preserve t _ n v happ
    · have hskip : (applyField d f).lookup n = none := by
        rw [applyField_skip d f n (Or.inl fun he => hf he), hd]
      have hgt : g ∈ t := by
        rcases List.mem_cons.mp hmem with h | h
        · exact absurd (h ▸ hname) hf
        · exact h
      exact ih _ hskip hgt
        (fun g' hg' => hagree g' (List.mem_cons_of_mem f hg'))

/-- Helper: membership in the harvest sequence is membership among the named
fields of the form. -/
theorem mem_harvestList (fs : Fields) (g : FieldElem) :
    g ∈ harvestList fs ↔ g ∈ fs ∧ g.name.isSome = true := by
  constructor
  · intro h
    rw [harvestList] at h
    rcases List.mem_append.mp h with h | h
    · rcases List.mem_append.mp h with h | h <;>
      · have := List.mem_filter.mp h
        exact ⟨this.1, (Bool.and_eq_true _ _ |>.mp this.2).2⟩
    · have := List.mem_filter.mp h
      exact ⟨this.1, (Bool.and_eq_true _ _ |>.mp this.2).2⟩
  · rintro ⟨hm, hn⟩
    rw [harvestList]
    cases g with
    | input nm v =>
      refine List.mem_append.mpr (Or.inl (List.mem_append.mpr (Or.inl
        (List.mem_filter.mpr ⟨hm, ?_⟩))))
      simpa [FieldElem.kind, FieldElem.name] using hn
    | select nm s =>
      refine List.mem_append.mpr (Or.inl (List.mem_append.mpr (Or.inr
        (List.mem_filter.mpr ⟨hm, ?_⟩))))
      simpa [FieldElem.kind, FieldElem.name] using hn
    | button nm v =>
      refine List.mem_append.mpr (Or.inr (List.mem_filter.mpr ⟨hm, ?_⟩))
      simpa [FieldElem.kind, FieldElem.name] using hn

/-- The default the harvest loop ends up binding to a name: the first field
element in harvest order carrying that name which actually yields a default
(an unselected select yields none and is passed over). -/
def firstHarvest (fs : Fields) (n : String) : Option String :=
  (((harvestList fs).filter (fun g => g.name == some n)).filterMap
    FieldElem.harvested).head?

/-- Helper: on a key absent from the dict, the harvest fold binds the first
default yielded by a field of that name, in fold order. -/
theorem foldl_first_wins (fs : Fields) (d : Dict) (n : String)
    (hd : d.lookup n = none) :
    (fs.foldl applyField d).lookup n =
      ((fs.filter (fun g => g.name == some n)).filterMap
        FieldElem.harvested).head? := by
  induction fs generalizing d with
  | nil => simpa using hd
  | cons f t ih =>
    rw [List.foldl_cons]
    by_cases hf : f.name = some n
    · cases hv : f.harvested with
      | none =>
        have happ : applyField d f = d := by
          rw [applyField, hf, hv]
        rw [happ, List.filter_cons_of_pos (by simp [hf]),
          List.filterMap_cons, hv]
        exact ih d hd
      | some v =>
        have happ : (applyField d f).lookup n = some v := by
          rw [applyField, hf, hv]
          exact setdefault_absent d n v hd
        rw [foldl_preserve t _ n v happ,
          List.filter_cons_of_pos (by simp [hf]),
          List.filterMap_cons, hv, List.head?_cons]
    · have happ : (applyField d f).lookup n = none := by
        rw [applyField_skip d f n (Or.inl hf), hd]
      rw [List.filter_cons_of_neg (by simp [hf])]
      exact ih _ happ

/-- C1 counterexample: a form holding two inputs that share the name "x",
with value attributes "1" and "2", posts (with empty caller data) a field
map binding "x" only to "1" — `setdefault` drops the second element's value,
so the posted map does not contain, for each named input, that element's
value attribute, refuting the claim as stated. -/
theorem form_duplicate_names_counterexample :
    (StoryGraphAPI.form
        ⟨"/act", [.input (some "x") (some "1"),
                  .input (some "x") (some "2")]⟩ []).data = [("x", "1")] ∧
    (StoryGraphAPI.form
        ⟨"/act", [.input (some "x") (some "1"),
                  .input (some "x") (some "2")]⟩ []).data.lookup "x" =
      some "1" :=
  ⟨rfl, rfl⟩

/-- C1 amended: `StoryGraphAPI.form` posts to the form's `action`;
caller-supplied entries always win over harvested defaults; every name not
bound by the caller is bound to the default of the first element carrying
that name, in harvest order, that yields one — later same-named elements'
defaults are dropped — where an input or button yields its `value` attribute
(`""` when absent), a select yields its selected option's `value`, and a
select with no selected option yields nothing; in particular a name whose
only carrier is one field element gets exactly that element's default, and a
name carried by no element stays absent. -/
theorem form_field_harvest_first (f : FormTag) (data0 : Dict) :
    (StoryGraphAPI.form f data0).path = f.action ∧
    (∀ k v, data0.lookup k = some v →
      (StoryGraphAPI.form f data0).data.lookup k = some v) ∧
    (∀ n, data0.lookup n = none →
      (StoryGraphAPI.form f data0).data.lookup n = firstHarvest f.fields n) ∧
    (∀ g ∈ f.fields, ∀ n, g.name = some n → data0.lookup n = none →
      (∀ g' ∈ f.fields, g'.name = some n → g' = g) →
      (StoryGraphAPI.form f data0).data.lookup n = g.harvested) ∧
    (∀ n, data0.lookup n = none → (∀ g ∈ f.fields, g.name ≠ some n) →
      (StoryGraphAPI.form f data0).data.lookup n = none) ∧
    (∀ nm v ov, (FieldElem.input nm v).harvested = some (v.getD "") ∧
      (FieldElem.button nm v).harvested = some (v.getD "") ∧
      (FieldElem.select nm (some ov)).harvested = some (ov.getD "") ∧
      (FieldElem.select nm none).harvested = none) := by
  refine ⟨rfl, ?_, ?_, ?_, ?_, fun nm v ov => ⟨rfl, rfl, rfl, rfl⟩⟩
  · intro k v h
    exact foldl_preserve _ data0 k v h
  · intro n hd
    exact foldl_first_wins (harvestList f.fields) data0 n hd
  · intro g hg n hn hd huniq
    have hgh : g ∈ harvestList f.fields :=
      (mem_harvestList f.fields g).mpr ⟨hg, hn ▸ rfl⟩
    cases hv : g.harvested with
    | some v =>
      exact foldl_found (harvestList f.fields) data0 n v g hd hgh hn
        (fun g' hg' hn' =>
          huniq g' ((mem_harvestList f.fields g').mp hg').1 hn' ▸ hv)
    | none =>
      rw [show (StoryGraphAPI.form f data0).data =
            (harvestList f.fields).foldl applyField data0 from rfl,
        foldl_skip (harvestList f.fields) data0 n
          (fun g' hg' => by
            by_cases he : g'.name = some n
            · exact Or.inr
                (huniq g' ((mem_harvestList f.fields g').mp hg').1 he ▸ hv)
            · exact Or.inl he), hd]
  · intro n hd hnone
    rw [show (StoryGraphAPI.form f data0).data =
          (harvestList f.fields).foldl applyField data0 from rfl,
      foldl_skip (harvestList f.fields) data0 n
        (fun g' hg' =>
          Or.inl (hnone g' ((mem_harvestList f.fields g').mp hg').1)), hd]

/-- Witness for `form_field_harvest_first`: on the duplicate-name form the
first input's value wins, and on a singleton select form the selected
option's value is harvested while the caller's entry for "a" wins. -/
theorem form_field_harvest_first_witness :
    (StoryGraphAPI.form
        ⟨"/act", [.input (some "x") (some "1"),
                  .input (some "x") (some "2")]⟩ []).data.lookup "x" =
      some "1" ∧
    (StoryGraphAPI.form
        ⟨"/act", [.input (some "a") (some "v"),
                  .select (some "s") (some (some "y"))]⟩
      [("a", "caller")]).data.lookup "s" = some "y" := by
  constructor
  · have h := (form_field_harvest_first
        ⟨"/act", [.input (some "x") (some "1"),
                  .input (some "x") (some "2")]⟩ []).2.2.1 "x" rfl
    rw [h]
    rfl
  · have h := (form_field_harvest_first
        ⟨"/act", [.input (some "a") (some "v"),
                  .select (some "s") (some (some "y"))]⟩
        [("a", "caller")]).2.2.2.1
      (.select (some "s") (some (some "y"))) (by decide) "s" rfl (by decide)
      (by decide)
    rw [h]
    rfl

/-! ### `data-method` pseudo-verbs (`StoryGraphAPI.method`) -/

/-- The parts of a link tag that `method` reads: its `href` and
`data-method` attributes. -/
structure LinkTag where
  href : String
  dataMethod : String
deriving DecidableEq, Repr

/-- A Python dict whose keys may be `None` (`self._csrf_param` is `None`
when no page carrying a `csrf-param` meta has been parsed yet). -/
abbrev ODict := List (Option String × String)

/-- Assignment into such a dict: overwrite in place, else append. -/
def odictInsert : ODict → Option String → String → ODict
  | [], k, v => [(k, v)]
  | (k', v') :: rest, k, v =>
    if k' = k then (k', v) :: rest else (k', v') :: odictInsert rest k v

/-- The POST request `method` issues. -/
structure MethodReq where
  path : String
  fields : ODict
deriving DecidableEq, Repr

/-- `StoryGraphAPI.method` (api.py lines 56-61): build the dict literal
`{"_method": link["data-method"], self._csrf_param: self.csrf()}` — the key
`self._csrf_param` is read before `self.csrf()` runs — and post it to the
link's `href`.  `rootPage` feeds the root fetch inside `csrf` when the token
cache is empty. -/
def StoryGraphAPI.method (st : ApiState) (link : LinkTag)
    (rootPage : PageMeta) : Except PyErr (MethodReq × ApiState) :=
  let p := st.csrfParam
  match StoryGraphAPI.csrf st rootPage with
  | .error e => .error e
  | .ok (tok, st') =>
    .ok (⟨link.href,
          odictInsert (odictInsert [] (some "_method") link.dataMethod) p tok⟩,
         st')

/-- C7: for a link carrying `data-method`, when a csrf-param name `p`
(distinct from `"_method"`) is stored and the CSRF lookup succeeds with
token `t`, `method` posts to the link's `href` exactly the two fields
`_method ↦ data-method` and `p ↦ t`, where `t` is the freshly consumed CSRF
token (the cache is left empty). -/
theorem method_pseudo_verb (st : ApiState) (link : LinkTag)
    (rootPage : PageMeta) (p t : String) (st' : ApiState)
    (hp : st.csrfParam = some p) (hne : p ≠ "_method")
    (hcs : StoryGraphAPI.csrf st rootPage = .ok (t, st')) :
    StoryGraphAPI.method st link rootPage =
      .ok (⟨link.href, [(some "_method", link.dataMethod), (some p, t)]⟩, st') ∧
    st'.csrfToken = none := by
  constructor
  · rw [StoryGraphAPI.method]
    simp only [hp, hcs]
    rw [odictInsert, odictInsert,
      if_neg (fun he => hne (Option.some_injective _ he.symm)), odictInsert]
  · exact csrf_ok_clears st rootPage t st' hcs

/-- Witness for `method_pseudo_verb` at a concrete state and link. -/
theorem method_pseudo_verb_witness :
    StoryGraphAPI.method ⟨some "authenticity_token", some "tok"⟩
        ⟨"/x", "delete"⟩ ⟨none, none⟩ =
      .ok (⟨"/x", [(some "_method", "delete"),
                   (some "authenticity_token", "tok")]⟩,
           ⟨some "authenticity_token", none⟩) :=
  (method_pseudo_verb ⟨some "authenticity_token", some "tok"⟩ ⟨"/x", "delete"⟩
    ⟨none, none⟩ "authenticity_token" "tok" ⟨some "authenticity_token", none⟩
    rfl (by decide) rfl).1

/-! ### Book status (`Book.status` getter and setter) -/

/-- `Status` (models.py lines 14-19). -/
inductive Status
  | NONE
  | TO_READ
  | CURRENT
  | READ
  | DID_NOT_FINISH
deriving DecidableEq, Repr

/-- The `value` of each `Status` member. -/
def Status.value : Status → String
  | .NONE => ""
  | .TO_READ => "to read"
  | .CURRENT => "currently reading"
  | .READ => "read"
  | .DID_NOT_FINISH => "did not finish"

/-- `Status(text)`: the member whose value equals `text`, or a `ValueError`
(`none`). -/
def Status.fromText (s : String) : Option Status :=
  [Status.NONE, .TO_READ, .CURRENT, .READ, .DID_NOT_FINISH].find?
    (fun m => m.value == s)

/-- `new.value.replace(" ", "-")`: the slug appearing in the update-status
form action. -/
def Status.slug (s : Status) : String :=
  String.mk (s.value.toList.map fun c => if c = ' ' then '-' else c)

/-- Substring containment, as Python's `in` on strings. -/
def strContains (hay needle : String) : Bool :=
  decide (needle.toList <:+: hay.toList)

/-- The parts of a book's markup that the `status` property and setter read:
the text of the element of class `read-status-label` when present, and the
form tags in document order. -/
structure BookM where
  statusLabel : Option String
  forms : List FormTag
deriving DecidableEq, Repr

/-- `Book.status` getter (models.py lines 141-144): `Status(label.text)` when
the label exists (a `ValueError` when the text is no member value), else
`Status.NONE`. -/
def Book.status (b : BookM) : Option Status :=
  match b.statusLabel with
  | none => some Status.NONE
  | some t => Status.fromText t

/-- The loop condition of the status setter (models.py lines 150-156): a
form matches iff its action contains `"/remove-book/"` when the target is
`NONE`, and otherwise contains both `"/update-status"` and `"=" + slug`. -/
def statusFormMatch (new : Status) (f : FormTag) : Bool :=
  if new = Status.NONE then strContains f.action "/remove-book/"
  else strContains f.action "/update-status" &&
       strContains f.action ("=" ++ new.slug)

/-- What the status setter does: nothing at all, or submit a form followed
by `self.reload()`. -/
inductive StatusEffect
  | noop
  | submitReload (f : FormTag)
deriving DecidableEq, Repr

/-- `Book.status` setter (models.py lines 146-160): return silently when the
current status already equals the target, otherwise submit the first
matching form and reload, or raise "No update status form". A `ValueError`
escapes if the current label text is no `Status` value. -/
def Book.statusSet (b : BookM) (new : Status) : Except PyErr StatusEffect :=
  match Book.status b with
  | none => .error .value
  | some cur =>
    if cur = new then .ok .noop
    else match b.forms.find? (statusFormMatch new) with
      | some f => .ok (.submitReload f)
      | none => .error (.sg "No update status form")

/-- C6: for a book with a well-defined current status different from the
target, the setter submits (then reloads after) the first form whose action
matches the target — `"/remove-book/"` for `NONE`, otherwise
`"/update-status"` plus `"="` followed by the target's hyphenated slug — and
raises "No update status form" when no form matches. -/
theorem status_setter_locates_form (b : BookM) (new cur : Status)
    (hcur : Book.status b = some cur) (hne : cur ≠ new) :
    ((∃ f ∈ b.forms, statusFormMatch new f = true) →
      ∃ f, Book.statusSet b new = .ok (.submitReload f) ∧
        b.forms.find? (statusFormMatch new) = some f ∧
        f ∈ b.forms ∧ statusFormMatch new f = true) ∧
    ((∀ f ∈ b.forms, statusFormMatch new f = false) →
      Book.statusSet b new = .error (.sg "No update status form")) ∧
    (∀ f, statusFormMatch new f =
      if new = Status.NONE then strContains f.action "/remove-book/"
      else strContains f.action "/update-status" &&
           strContains f.action ("=" ++ new.slug)) := by
  refine ⟨?_, ?_, fun f => rfl⟩
  · rintro ⟨f0, hf0, hm0⟩
    obtain ⟨f, hfind⟩ : ∃ f, b.forms.find? (statusFormMatch new) = some f := by
      cases hx : b.forms.find? (statusFormMatch new) with
      | none =>
        rw [List.find?_eq_none] at hx
        exact absurd hm0 (by simp [hx f0 hf0])
      | some f => exact ⟨f, rfl⟩
    refine ⟨f, ?_, hfind, List.mem_of_find?_eq_some hfind,
      List.find?_some hfind⟩
    rw [Book.statusSet, hcur]
    simp only [if_neg hne, hfind]
  · intro hnone
    rw [Book.statusSet, hcur]
    simp only [if_neg hne]
    rw [List.find?_eq_none.mpr (fun f hf => by simp [hnone f hf])]

/-- Witness for `status_setter_locates_form` on a concrete book. -/
theorem status_setter_locates_form_witness :
    Book.statusSet
        ⟨some "to read",
         [⟨"/update-status?status=currently-reading", []⟩]⟩
        Status.CURRENT =
      .ok (.submitReload ⟨"/update-status?status=currently-reading", []⟩) := by
  have h := ((status_setter_locates_form
      ⟨some "to read", [⟨"/update-status?status=currently-reading", []⟩]⟩
      Status.CURRENT Status.TO_READ (by decide) (by decide)).1
    ⟨⟨"/update-status?status=currently-reading", []⟩, by decide, by decide⟩)
  rcases h with ⟨f, hset, hfind, -, -⟩
  have heval : List.find? (statusFormMatch Status.CURRENT)
      [⟨"/update-status?status=currently-reading", []⟩] =
      some ⟨"/update-status?status=currently-reading", []⟩ := rfl
  rw [heval] at hfind
  have hf := Option.some_inj.mp hfind
  subst hf
  exact hset

/-- C9: assigning `Book.status` its current value is a no-op: no form is
submitted, no request issued, and the book value is untouched. -/
theorem status_setter_noop (b : BookM) (new : Status)
    (hcur : Book.status b = some new) :
    Book.statusSet b new = .ok .noop := by
  rw [Book.statusSet, hcur]
  simp

/-- Witness for `status_setter_noop` on a concrete book. -/
theorem status_setter_noop_witness :
    Book.statusSet ⟨some "read", [⟨"/remove-book/1", []⟩]⟩ Status.READ =
      .ok .noop :=
  status_setter_noop ⟨some "read", [⟨"/remove-book/1", []⟩]⟩ Status.READ
    (by decide)

/-! ### Credential persistence (`StoryGraph.__exit__`) -/

/-- A JSON object as loaded from the credentials file: keys in order with
values of any JSON shape `V` (`email`, `password`, an optional `cookie`, and
any extra fields). -/
abbrev Creds (V : Type) := List (String × V)

/-- Python dict item assignment `d[k] = v`: overwrite in place, or append. -/
def dictAssign {V : Type} : Creds V → String → V → Creds V
  | [], k, v => [(k, v)]
  | (k', v') :: rest, k, v =>
    if k' = k then (k', v) :: rest else (k', v') :: dictAssign rest k v

namespace StoryGraph

/-- `StoryGraph.__exit__` (client.py lines 21-24): set `creds["cookie"]` to
the session cookie (possibly `None`, hence an arbitrary JSON value) and dump
the whole dict back to the credentials file; the returned dict is the file's
new content. -/
def exit {V : Type} (creds : Creds V) (sessionCookie : V) : Creds V :=
  dictAssign creds "cookie" sessionCookie

end StoryGraph

/-- Helper: `dictAssign` binds the assigned key. -/
theorem dictAssign_lookup_self {V : Type} (d : Creds V) (k : String) (v : V) :
    (dictAssign d k v).lookup k = some v := by
  induction d with
  | nil => simp [dictAssign, List.lookup]
  | cons p t ih =>
    obtain ⟨k', v'⟩ := p
    by_cases h : k' = k
    · simp [dictAssign, h, List.lookup]
    · have hb : (k == k') = false :=
        beq_eq_false_iff_ne.mpr fun he => h he.symm
      simp [dictAssign, h, List.lookup, hb, ih]

/-- Helper: `dictAssign` leaves every other key's binding alone. -/
theorem dictAssign_lookup_other {V : Type} (d : Creds V) (k k' : String)
    (v : V) (h : k' ≠ k) :
    (dictAssign d k v).lookup k' = d.lookup k' := by
  induction d with
  | nil =>
    have hb : (k' == k) = false := beq_eq_false_iff_ne.mpr h
    simp [dictAssign, List.lookup, hb]
  | cons p t ih =>
    obtain ⟨k'', v''⟩ := p
    by_cases he : k'' = k
    · subst he
      have hb : (k' == k'') = false := beq_eq_false_iff_ne.mpr h
      simp [dictAssign, List.lookup, hb]
    · by_cases he' : k' = k''
      · subst he'
        simp [dictAssign, he, List.lookup]
      · have hb : (k' == k'') = false := beq_eq_false_iff_ne.mpr he'
        simp [dictAssign, he, List.lookup, hb, ih]

/-- C10: the credentials dict written back by `__exit__` binds `"cookie"` to
the current session cookie and binds every other key exactly as the dict
loaded at `__enter__` did. -/
theorem exit_rewrites_only_cookie {V : Type} (creds : Creds V)
    (sessionCookie : V) :
    (StoryGraph.exit creds sessionCookie).lookup "cookie" =
        some sessionCookie ∧
    (∀ k, k ≠ "cookie" →
      (StoryGraph.exit creds sessionCookie).lookup k = creds.lookup k) :=
  ⟨dictAssign_lookup_self creds "cookie" sessionCookie,
   fun k hk => dictAssign_lookup_other creds "cookie" k sessionCookie hk⟩

/-- Witness for `exit_rewrites_only_cookie` on a concrete credentials
file. -/
theorem exit_rewrites_only_cookie_witness :
    (StoryGraph.exit [("email", "e"), ("password", "p"), ("cookie", "old")]
        "new").lookup "email" = some "e" :=
  (exit_rewrites_only_cookie
      [("email", "e"), ("password", "p"), ("cookie", "old")] "new").2
    "email" (by decide)

/-! ### Dates (`DateAccuracy.parse` / `DateAccuracy.unparse`)

`datetime.strptime` / `date.strftime` are modelled for the three format
strings the code uses: `%d` is a one- or two-digit day 1-31 (strftime pads
it to two digits), `%B` a full month name matched case-insensitively, `%Y` a
four-digit year (strftime is modelled as zero-padding the year to four
digits), and `strptime` validates the assembled triple exactly as the
`datetime` constructor does (month 1-12, day within the month's length,
year 1-9999). -/

/-- `DateAccuracy` (models.py lines 28-32). -/
inductive DateAccuracy
  | YEAR
  | MONTH
  | DAY
deriving DecidableEq, Repr

/-- A `datetime.date` value. -/
structure PyDate where
  year : Nat
  month : Nat
  day : Nat
deriving DecidableEq, Repr

/-- Gregorian leap year, as `calendar.isleap` / `datetime` use it. -/
def isLeap (y : Nat) : Bool :=
  (y % 4 == 0 && y % 100 != 0) || y % 400 == 0

/-- Number of days in a month, as the `datetime` constructor validates. -/
def daysInMonth (y m : Nat) : Nat :=
  if m = 2 then (if isLeap y then 29 else 28)
  else if m = 4 ∨ m = 6 ∨ m = 9 ∨ m = 11 then 30
  else 31

/-- The triples accepted by the `datetime.date` constructor. -/
def PyDate.valid (d : PyDate) : Bool :=
  decide (1 ≤ d.year ∧ d.year ≤ 9999 ∧ 1 ≤ d.month ∧ d.month ≤ 12 ∧
          1 ≤ d.day ∧ d.day ≤ daysInMonth d.year d.month)

/-- The decimal digit character for `n < 10`. -/
def digitChar (n : Nat) : Char := Char.ofNat (48 + n)

/-- The value of a decimal digit character. -/
def charVal (c : Char) : Nat := c.toNat - 48

/-- Little-endian decimal digits of `n`, by fuel-guarded division (same
value as `Nat.digits 10 n`, but kernel-reducible). -/
def digitsGo : Nat → Nat → List Nat
  | 0, _ => []
  | _ + 1, 0 => []
  | fuel + 1, n + 1 => (n + 1) % 10 :: digitsGo fuel ((n + 1) / 10)

/-- Little-endian decimal digits of `n`. -/
def natDigits (n : Nat) : List Nat := digitsGo n n

/-- The decimal numeral of `n` as `str(n)` renders it (empty for 0, which
never occurs below: all uses are padded or have `n ≥ 1`). -/
def natChars (n : Nat) : List Char := ((natDigits n).map digitChar).reverse

/-- The numeric value of a string of digit characters. -/
def charsVal (cs : List Char) : Nat :=
  Nat.ofDigits 10 (cs.reverse.map charVal)

/-- All characters are decimal digits. -/
def allDigits (cs : List Char) : Bool := cs.all Char.isDigit

/-- `strftime("%d")`: the day, zero-padded to two digits. -/
def pad2 (n : Nat) : List Char :=
  if n < 10 then ['0', digitChar n] else natChars n

/-- `strftime("%Y")`: the year, zero-padded to four digits. -/
def pad4 (n : Nat) : List Char :=
  List.replicate (4 - (natChars n).length) '0' ++ natChars n

/-- The English month names `%B` produces and accepts. -/
def monthNames : List String :=
  ["January", "February", "March", "April", "May", "June", "July",
   "August", "September", "October", "November", "December"]

/-- `strftime("%B")` for month number `m` (1-12). -/
def monthName (m : Nat) : String := monthNames.getD (m - 1) ""

/-- ASCII lower-casing of one character. -/
def lowerChar (c : Char) : Char :=
  if 65 ≤ c.toNat ∧ c.toNat ≤ 90 then Char.ofNat (c.toNat + 32) else c

/-- Case-insensitive ASCII equality of character lists. -/
def lowerEq (a b : List Char) : Bool := a.map lowerChar == b.map lowerChar

/-- `strptime` `%B` matching: case-insensitive full month name. -/
def monthFromName (s : String) : Option Nat :=
  (monthNames.findIdx? (fun nm => lowerEq nm.toList s.toList)).map (· + 1)

/-- Split a character list on single spaces, with accumulator (whitespace
handling of the `strptime` format strings ` ` used by the code). -/
def splitSp : List Char → List Char → List (List Char)
  | [], acc => [acc.reverse]
  | c :: cs, acc =>
    if c = ' ' then acc.reverse :: splitSp cs []
    else splitSp cs (c :: acc)

/-- The space-separated tokens of a string. -/
def tokenize (s : String) : List (List Char) := splitSp s.toList []

/-- `strptime` `%d`: one or two digits with value 1-31. -/
def parseDayTok (cs : List Char) : Option Nat :=
  if cs.length = 0 then none
  else if 2 < cs.length then none
  else if allDigits cs then
    if 1 ≤ charsVal cs ∧ charsVal cs ≤ 31 then some (charsVal cs) else none
  else none

/-- `strptime` `%Y`: exactly four digits. -/
def parseYearTok (cs : List Char) : Option Nat :=
  if cs.length = 4 then
    if allDigits cs then some (charsVal cs) else none
  else none

/-- `strptime(text, "%d %B %Y")` followed by taking `.date()`: `none` is the
`ValueError` the `except` clause catches. -/
def tryDayPattern (toks : List (List Char)) : Option PyDate :=
  match toks with
  | [d, m, y] =>
    match parseDayTok d, monthFromName (String.mk m), parseYearTok y with
    | some dv, some mv, some yv =>
      if (PyDate.mk yv mv dv).valid then some ⟨yv, mv, dv⟩ else none
    | _, _, _ => none
  | _ => none

/-- `strptime(text, "%B %Y")` followed by `.date()` (day defaults to 1). -/
def tryMonthPattern (toks : List (List Char)) : Option PyDate :=
  match toks with
  | [m, y] =>
    match monthFromName (String.mk m), parseYearTok y with
    | some mv, some yv =>
      if (PyDate.mk yv mv 1).valid then some ⟨yv, mv, 1⟩ else none
    | _, _ => none
  | _ => none

/-- `strptime(text, "%Y")` followed by `.date()` (month and day default
to 1). -/
def tryYearPattern (toks : List (List Char)) : Option PyDate :=
  match toks with
  | [y] =>
    match parseYearTok y with
    | some yv =>
      if (PyDate.mk yv 1 1).valid then some ⟨yv, 1, 1⟩ else none
    | none => none
  | _ => none

/-- An ASCII single quote (written via its code point). -/
def squoteChar : Char := Char.ofNat 39

/-- Python `repr` of a plain string, as f-string `!r` renders it. -/
def pyRepr (s : String) : String :=
  String.mk (squoteChar :: s.toList ++ [squoteChar])

/-- The message of the unparseable-date error. -/
def cantParseMsg (s : String) : String :=
  String.mk ("Can".toList ++ squoteChar :: "t parse date: ".toList) ++ pyRepr s

namespace DateAccuracy

/-- `DateAccuracy.parse` (models.py lines 34-50): "No date" maps to
`(None, None)`; otherwise the patterns `%d %B %Y`, `%B %Y`, `%Y` are tried
in that order, and if all fail a `StoryGraphError` reports the text. -/
def parse (text : String) :
    Except PyErr (Option PyDate × Option DateAccuracy) :=
  if text = "No date" then .ok (none, none)
  else
    match tryDayPattern (tokenize text) with
    | some d => .ok (some d, some .DAY)
    | none =>
      match tryMonthPattern (tokenize text) with
      | some d => .ok (some d, some .MONTH)
      | none =>
        match tryYearPattern (tokenize text) with
        | some d => .ok (some d, some .YEAR)
        | none => .error (.sg (cantParseMsg text))

/-- `DateAccuracy.unparse` (models.py lines 52-63): `None` renders as
"No date", otherwise the date is formatted with the pattern matching the
accuracy. -/
def unparse (when : Option PyDate) (acc : DateAccuracy) : String :=
  match when with
  | none => "No date"
  | some d =>
    match acc with
    | .DAY =>
      String.mk (pad2 d.day ++
        (' ' :: ((monthName d.month).toList ++ (' ' :: pad4 d.year))))
    | .MONTH =>
      String.mk ((monthName d.month).toList ++ (' ' :: pad4 d.year))
    | .YEAR => String.mk (pad4 d.year)

end DateAccuracy

/-- The date that `parse ∘ unparse` reconstructs: components finer than the
accuracy reset to 1. -/
def truncTo (d : PyDate) : DateAccuracy → PyDate
  | .DAY => d
  | .MONTH => ⟨d.year, d.month, 1⟩
  | .YEAR => ⟨d.year, 1, 1⟩

/-- Helper: the fuel-guarded digit function agrees with `Nat.digits`. -/
theorem digitsGo_eq (fuel n : Nat) (h : n ≤ fuel) :
    digitsGo fuel n = Nat.digits 10 n := by
  induction fuel generalizing n with
  | zero =>
    have : n = 0 := Nat.le_zero.mp h
    subst this
    simp [digitsGo]
  | succ f ih =>
    cases n with
    | zero => simp [digitsGo]
    | succ m =>
      rw [digitsGo, Nat.digits_def' (by norm_num : (1:Nat) < 10)
        (Nat.succ_pos m)]
      congr 1
      exact ih _ (Nat.le_trans
        (Nat.le_of_lt_succ (Nat.div_lt_self (Nat.succ_pos m) (by norm_num)))
        (Nat.le_of_succ_le_succ h))

/-- Helper: `natDigits` is `Nat.digits 10`. -/
theorem natDigits_eq (n : Nat) : natDigits n = Nat.digits 10 n :=
  digitsGo_eq n n le_rfl

/-- Helper: every entry of `natDigits` is a digit. -/
theorem natDigits_lt_ten (n d : Nat) (h : d ∈ natDigits n) : d < 10 := by
  rw [natDigits_eq] at h
  exact Nat.digits_lt_base (by norm_num) h

/-- Helper: value of a digit character round-trips. -/
theorem charVal_digitChar (n : Nat) (h : n < 10) :
    charVal (digitChar n) = n := by
  interval_cases n <;> decide

/-- Helper: digit characters are digits. -/
theorem isDigit_digitChar (n : Nat) (h : n < 10) :
    (digitChar n).isDigit = true := by
  interval_cases n <;> decide

/-- Helper: digit characters are not spaces. -/
theorem digitChar_ne_space (n : Nat) (h : n < 10) : digitChar n ≠ ' ' := by
  interval_cases n <;> decide

/-- Helper: reading back the numeral of `n` gives `n`. -/
theorem charsVal_natChars (n : Nat) : charsVal (natChars n) = n := by
  rw [charsVal, natChars, List.reverse_reverse, List.map_map]
  have h1 : (natDigits n).map (charVal ∘ digitChar) = (natDigits n).map id :=
    List.map_congr_left
      (fun d hd => charVal_digitChar d (natDigits_lt_ten n d hd))
  rw [h1, List.map_id, natDigits_eq, Nat.ofDigits_digits]

/-- Helper: the numeral of `n` consists of digit characters. -/
theorem natChars_all_digits (n : Nat) : allDigits (natChars n) = true := by
  rw [allDigits, List.all_eq_true]
  intro c hc
  rw [natChars, List.mem_reverse, List.mem_map] at hc
  obtain ⟨d, hd, hc⟩ := hc
  exact hc ▸ isDigit_digitChar d (natDigits_lt_ten n d hd)

/-- Helper: the numeral of `n` has no spaces. -/
theorem natChars_no_space (n : Nat) : ' ' ∉ natChars n := by
  intro h
  rw [natChars, List.mem_reverse, List.mem_map] at h
  obtain ⟨d, hd, hc⟩ := h
  exact digitChar_ne_space d (natDigits_lt_ten n d hd) hc

/-- Helper: numerals of numbers below `10 ^ k` have at most `k` digits. -/
theorem natChars_length_le (n k : Nat) (h : n < 10 ^ k) :
    (natChars n).length ≤ k := by
  rw [natChars, List.length_reverse, List.length_map, natDigits_eq]
  rcases Nat.eq_zero_or_pos n with h0 | h0
  · subst h0; simp
  · rw [Nat.digits_len 10 n (by norm_num) (Nat.pos_iff_ne_zero.mp h0)]
    have := Nat.log_lt_of_lt_pow (Nat.pos_iff_ne_zero.mp h0) h
    omega

/-- Helper: nonzero numbers have a nonempty numeral. -/
theorem natChars_ne_nil (n : Nat) (h : n ≠ 0) : natChars n ≠ [] := by
  rw [natChars, natDigits_eq]
  simp [Nat.digits_ne_nil_iff_ne_zero.mpr h]

/-- Helper: `ofDigits` of zeros is zero. -/
theorem ofDigits_replicate_zero (k : Nat) :
    Nat.ofDigits 10 (List.replicate k 0) = 0 := by
  induction k with
  | zero => rfl
  | succ m ih => rw [List.replicate_succ, Nat.ofDigits_cons, ih]

/-- Helper: leading zero characters do not change a numeral's value. -/
theorem charsVal_zero_pad (k : Nat) (cs : List Char) :
    charsVal (List.replicate k '0' ++ cs) = charsVal cs := by
  rw [charsVal, charsVal, List.reverse_append, List.map_append,
    Nat.ofDigits_append, List.reverse_replicate]
  have h0 : (List.replicate k '0').map charVal = List.replicate k 0 := by
    rw [List.map_replicate]
    rfl
  rw [h0, ofDigits_replicate_zero]
  ring

/-- Helper: `%d` reads back the two-digit rendering of a day. -/
theorem parseDayTok_pad2 (n : Nat) (h1 : 1 ≤ n) (h2 : n ≤ 31) :
    parseDayTok (pad2 n) = some n := by
  by_cases h : n < 10
  · rw [pad2, if_pos h]
    have hv : charsVal ['0', digitChar n] = n := by
      have h0 : charVal '0' = 0 := rfl
      simp [charsVal, Nat.ofDigits_cons, Nat.ofDigits_nil,
        charVal_digitChar n h, h0]
    have hd : allDigits ['0', digitChar n] = true := by
      simp [allDigits, isDigit_digitChar n h]
    rw [parseDayTok]
    simp only [List.length_cons, List.length_nil]
    rw [if_neg (by omega), if_neg (by omega), if_pos hd, hv, if_pos ⟨h1, h2⟩]
  · rw [pad2, if_neg h]
    have hlen2 : (natChars n).length ≤ 2 :=
      natChars_length_le n 2 (by omega)
    have hne : natChars n ≠ [] := natChars_ne_nil n (by omega)
    have hlen0 : (natChars n).length ≠ 0 := by
      simpa [List.length_eq_zero] using hne
    rw [parseDayTok, if_neg hlen0, if_neg (by omega),
      if_pos (natChars_all_digits n), charsVal_natChars, if_pos ⟨h1, h2⟩]

/-- Helper: the padded year rendering has exactly four characters. -/
theorem pad4_length (n : Nat) (h : n ≤ 9999) : (pad4 n).length = 4 := by
  have hlen : (natChars n).length ≤ 4 :=
    natChars_length_le n 4 (by omega)
  rw [pad4, List.length_append, List.length_replicate]
  omega

/-- Helper: `%Y` reads back the four-digit rendering of a year. -/
theorem parseYearTok_pad4 (n : Nat) (h : n ≤ 9999) :
    parseYearTok (pad4 n) = some n := by
  have hdig : allDigits (pad4 n) = true := by
    rw [pad4, allDigits, List.all_eq_true]
    intro c hc
    rcases List.mem_append.mp hc with hc | hc
    · rw [List.eq_of_mem_replicate hc]; rfl
    · exact (List.all_eq_true.mp (natChars_all_digits n)) c hc
  rw [parseYearTok, if_pos (pad4_length n h), if_pos hdig, pad4,
    charsVal_zero_pad, charsVal_natChars]

/-- Helper: the day rendering has no spaces. -/
theorem pad2_no_space (n : Nat) : ' ' ∉ pad2 n := by
  rw [pad2]
  by_cases h : n < 10
  · rw [if_pos h]
    intro hm
    rcases List.mem_cons.mp hm with he | he
    · exact absurd he (by decide)
    · rcases List.mem_cons.mp he with he | he
      · exact digitChar_ne_space n h he.symm
      · exact absurd he (List.not_mem_nil _)
  · rw [if_neg h]
    exact natChars_no_space n

/-- Helper: the year rendering has no spaces. -/
theorem pad4_no_space (n : Nat) : ' ' ∉ pad4 n := by
  rw [pad4]
  intro hm
  rcases List.mem_append.mp hm with hc | hc
  · exact absurd (List.eq_of_mem_replicate hc) (by decide)
  · exact natChars_no_space n hc

/-- Helper: the day rendering of a positive day is nonempty. -/
theorem pad2_length_pos (n : Nat) (_hn : 1 ≤ n) : 0 < (pad2 n).length := by
  rw [pad2]
  split_ifs
  · simp
  · exact List.length_pos.mpr (natChars_ne_nil n (by omega))

/-- Helper: `%B` reads back every rendered month name. -/
theorem monthFromName_monthName (m : Nat) (h1 : 1 ≤ m) (h2 : m ≤ 12) :
    monthFromName (monthName m) = some m := by
  interval_cases m <;> rfl

/-- Helper: month names contain no space. -/
theorem monthName_no_space (m : Nat) (h1 : 1 ≤ m) (h2 : m ≤ 12) :
    ' ' ∉ (monthName m).toList := by
  interval_cases m <;> decide

/-- Helper: month names have at least three characters. -/
theorem monthName_length_ge (m : Nat) (h1 : 1 ≤ m) (h2 : m ≤ 12) :
    3 ≤ (monthName m).toList.length := by
  interval_cases m <;> decide

/-- Helper: every month has at least one day. -/
theorem daysInMonth_pos (y m : Nat) : 1 ≤ daysInMonth y m := by
  rw [daysInMonth]
  split_ifs <;> norm_num

/-- Helper: no month has more than 31 days. -/
theorem daysInMonth_le_31 (y m : Nat) : daysInMonth y m ≤ 31 := by
  rw [daysInMonth]
  split_ifs <;> norm_num

/-- Helper: splitting a space-free chunk yields one token. -/
theorem splitSp_no_space (a acc : List Char) (h : ' ' ∉ a) :
    splitSp a acc = [acc.reverse ++ a] := by
  induction a generalizing acc with
  | nil => simp [splitSp]
  | cons c cs ih =>
    rw [splitSp,
      if_neg (fun hc : c = ' ' => h (by rw [← hc]; exact List.mem_cons_self c cs)),
      ih (c :: acc) (fun hm => h (List.mem_cons_of_mem c hm))]
    simp

/-- Helper: splitting past a space-free chunk emits it as one token. -/
theorem splitSp_append (a rest acc : List Char) (h : ' ' ∉ a) :
    splitSp (a ++ ' ' :: rest) acc =
      (acc.reverse ++ a) :: splitSp rest [] := by
  induction a generalizing acc with
  | nil => simp [splitSp]
  | cons c cs ih =>
    rw [List.cons_append, splitSp,
      if_neg (fun hc : c = ' ' => h (by rw [← hc]; exact List.mem_cons_self c cs)),
      ih _ (fun hm => h (List.mem_cons_of_mem c hm))]
    simp

/-- Helper: `tokenize` of a built string splits its characters. -/
theorem tokenize_mk (L : List Char) : tokenize (String.mk L) = splitSp L [] :=
  rfl

/-- Helper: a built string of the wrong length is not "No date". -/
theorem mk_ne_noDate (L : List Char) (h : L.length ≠ 7) :
    String.mk L ≠ "No date" := by
  intro he
  have hL : L = "No date".toList := congrArg String.toList he
  rw [hL] at h
  exact h rfl

/-- Helper: the components of a valid date, unpacked. -/
theorem valid_unpack (d : PyDate) (hv : d.valid = true) :
    1 ≤ d.year ∧ d.year ≤ 9999 ∧ 1 ≤ d.month ∧ d.month ≤ 12 ∧
      1 ≤ d.day ∧ d.day ≤ daysInMonth d.year d.month :=
  of_decide_eq_true hv

/-- Helper: a date rendered with `%d %B %Y` is never the "No date"
sentinel, and neither are the other two renderings. -/
theorem unparse_some_ne_noDate (d : PyDate) (a : DateAccuracy)
    (hv : d.valid = true) :
    DateAccuracy.unparse (some d) a ≠ "No date" := by
  obtain ⟨hy1, hy2, hm1, hm2, hd1, hd2⟩ := valid_unpack d hv
  cases a with
  | DAY =>
    simp only [DateAccuracy.unparse]
    apply mk_ne_noDate
    rw [List.length_append, List.length_cons, List.length_append,
      List.length_cons, pad4_length d.year hy2]
    have h3 := monthName_length_ge d.month hm1 hm2
    have h1 := pad2_length_pos d.day hd1
    omega
  | MONTH =>
    simp only [DateAccuracy.unparse]
    apply mk_ne_noDate
    rw [List.length_append, List.length_cons, pad4_length d.year hy2]
    have h3 := monthName_length_ge d.month hm1 hm2
    omega
  | YEAR =>
    simp only [DateAccuracy.unparse]
    apply mk_ne_noDate
    rw [pad4_length d.year hy2]
    omega

/-- Helper: tokens of the `%d %B %Y` rendering. -/
theorem tokenize_day (d : PyDate) (hm1 : 1 ≤ d.month) (hm2 : d.month ≤ 12) :
    tokenize (DateAccuracy.unparse (some d) .DAY) =
      [pad2 d.day, (monthName d.month).toList, pad4 d.year] := by
  simp only [DateAccuracy.unparse, tokenize_mk]
  rw [splitSp_append _ _ _ (pad2_no_space d.day),
    splitSp_append _ _ _ (monthName_no_space d.month hm1 hm2),
    splitSp_no_space _ _ (pad4_no_space d.year)]
  simp

/-- Helper: tokens of the `%B %Y` rendering. -/
theorem tokenize_month (d : PyDate) (hm1 : 1 ≤ d.month) (hm2 : d.month ≤ 12) :
    tokenize (DateAccuracy.unparse (some d) .MONTH) =
      [(monthName d.month).toList, pad4 d.year] := by
  simp only [DateAccuracy.unparse, tokenize_mk]
  rw [splitSp_append _ _ _ (monthName_no_space d.month hm1 hm2),
    splitSp_no_space _ _ (pad4_no_space d.year)]
  simp

/-- Helper: tokens of the `%Y` rendering. -/
theorem tokenize_year (d : PyDate) :
    tokenize (DateAccuracy.unparse (some d) .YEAR) = [pad4 d.year] := by
  simp only [DateAccuracy.unparse, tokenize_mk]
  rw [splitSp_no_space _ _ (pad4_no_space d.year)]
  simp

/-- Helper: `%d %B %Y` reads back the full rendering of a valid date. -/
theorem tryDayPattern_tokens (d : PyDate) (hv : d.valid = true) :
    tryDayPattern [pad2 d.day, (monthName d.month).toList, pad4 d.year] =
      some d := by
  obtain ⟨hy1, hy2, hm1, hm2, hd1, hd2⟩ := valid_unpack d hv
  have h1 : parseDayTok (pad2 d.day) = some d.day :=
    parseDayTok_pad2 d.day hd1
      (le_trans hd2 (daysInMonth_le_31 d.year d.month))
  have h2 : monthFromName (String.mk (monthName d.month).toList) =
      some d.month := monthFromName_monthName d.month hm1 hm2
  have h3 : parseYearTok (pad4 d.year) = some d.year :=
    parseYearTok_pad4 d.year hy2
  simp only [tryDayPattern, h1, h2, h3]
  rw [if_pos (show (PyDate.mk d.year d.month d.day).valid = true from hv)]

/-- Helper: `%B %Y` reads back the month rendering of a valid date. -/
theorem tryMonthPattern_tokens (d : PyDate) (hv : d.valid = true) :
    tryMonthPattern [(monthName d.month).toList, pad4 d.year] =
      some ⟨d.year, d.month, 1⟩ := by
  obtain ⟨hy1, hy2, hm1, hm2, hd1, hd2⟩ := valid_unpack d hv
  have h2 : monthFromName (String.mk (monthName d.month).toList) =
      some d.month := monthFromName_monthName d.month hm1 hm2
  have h3 : parseYearTok (pad4 d.year) = some d.year :=
    parseYearTok_pad4 d.year hy2
  simp only [tryMonthPattern, h2, h3]
  have hv1 : (PyDate.mk d.year d.month 1).valid = true :=
    decide_eq_true ⟨hy1, hy2, hm1, hm2, le_rfl, daysInMonth_pos d.year d.month⟩
  rw [if_pos hv1]

/-- Helper: `%Y` reads back the year rendering of a valid date. -/
theorem tryYearPattern_tokens (d : PyDate) (hv : d.valid = true) :
    tryYearPattern [pad4 d.year] = some ⟨d.year, 1, 1⟩ := by
  obtain ⟨hy1, hy2, hm1, hm2, hd1, hd2⟩ := valid_unpack d hv
  have h3 : parseYearTok (pad4 d.year) = some d.year :=
    parseYearTok_pad4 d.year hy2
  simp only [tryYearPattern, h3]
  have hv1 : (PyDate.mk d.year 1 1).valid = true :=
    decide_eq_true ⟨hy1, hy2, le_rfl, by norm_num, le_rfl,
      daysInMonth_pos d.year 1⟩
  rw [if_pos hv1]

/-- C8: for every valid date and accuracy, `parse` inverts `unparse` up to
resetting the components finer than the accuracy to 1 (`YEAR` gives
January 1 of the year, `MONTH` the first of the month, `DAY` the date
itself), recovering the same accuracy; `unparse None` is "No date" and
`parse "No date"` is `(None, None)`. -/
theorem date_parse_unparse (d : PyDate) (a : DateAccuracy)
    (hv : d.valid = true) :
    DateAccuracy.parse (DateAccuracy.unparse (some d) a) =
        .ok (some (truncTo d a), some a) ∧
    DateAccuracy.unparse none a = "No date" ∧
    DateAccuracy.parse "No date" = .ok (none, none) := by
  obtain ⟨hy1, hy2, hm1, hm2, hd1, hd2⟩ := valid_unpack d hv
  refine ⟨?_, by cases a <;> rfl, rfl⟩
  cases a with
  | DAY =>
    rw [DateAccuracy.parse, if_neg (unparse_some_ne_noDate d .DAY hv),
      tokenize_day d hm1 hm2, tryDayPattern_tokens d hv]
    rfl
  | MONTH =>
    rw [DateAccuracy.parse, if_neg (unparse_some_ne_noDate d .MONTH hv),
      tokenize_month d hm1 hm2]
    rw [show tryDayPattern [(monthName d.month).toList, pad4 d.year] = none
      from rfl]
    rw [tryMonthPattern_tokens d hv]
    rfl
  | YEAR =>
    rw [DateAccuracy.parse, if_neg (unparse_some_ne_noDate d .YEAR hv),
      tokenize_year d]
    rw [show tryDayPattern [pad4 d.year] = none from rfl,
      show tryMonthPattern [pad4 d.year] = none from rfl]
    rw [tryYearPattern_tokens d hv]
    rfl

/-- Witness for `date_parse_unparse` on 29 February 2024 at `MONTH`
accuracy. -/
theorem date_parse_unparse_witness :
    DateAccuracy.parse (DateAccuracy.unparse (some ⟨2024, 2, 29⟩) .MONTH) =
        .ok (some ⟨2024, 2, 1⟩, some .MONTH) ∧
    DateAccuracy.parse "No date" = .ok (none, none) :=
  ⟨(date_parse_unparse ⟨2024, 2, 29⟩ .MONTH (by decide)).1,
   (date_parse_unparse ⟨2024, 2, 29⟩ .MONTH (by decide)).2.2⟩

/-! ### Error propagation in the object model -/

/-- `pat.isPrefixOf`-style check: does `cs` start with `pat`?  Models
Python's `str.startswith`. -/
def startsB : List Char → List Char → Bool
  | [], _ => true
  | _ :: _, [] => false
  | p :: ps, c :: cs => p == c && startsB ps cs

/-- Python `s.split(sep, maxsplit)` for a single-character separator:
`n` splits remain allowed. -/
def splitChN (sep : Char) : List Char → List Char → Nat → List (List Char)
  | [], acc, _ => [acc.reverse]
  | c :: cs, acc, n =>
    if c = sep then
      match n with
      | 0 => splitChN sep cs (c :: acc) 0
      | m + 1 => acc.reverse :: splitChN sep cs [] m
    else splitChN sep cs (c :: acc) n

/-- Python `href.split("/", 3)`. -/
def pySplitSlash (s : String) (maxs : Nat) : List String :=
  (splitChN '/' s.toList [] maxs).map String.mk

/-- `Book.path` (models.py lines 68-74) over the hrefs of the book tag's
`a` elements in document order: the first href starting with `/books/`,
truncated to its first three slash-separated parts, else the
"No self link" error. -/
def Book.path (links : List String) : Except PyErr String :=
  match links.find? (fun l => startsB "/books/".toList l.toList) with
  | some href => .ok (String.intercalate "/" ((pySplitSlash href 3).take 3))
  | none => .error (.sg "No self link")

/-- The links of a book's markup that the `owned` setter looks up:
`find(class_="mark-as-owned-link")` and
`find(class_="remove-from-owned-link")`. -/
structure BookLinks where
  markOwnedLink : Option LinkTag
  removeOwnedLink : Option LinkTag
deriving DecidableEq, Repr

/-- What the `owned` setter does: nothing at all, or `self._sg.method` on
the link followed by `self.reload()`. -/
inductive OwnedEffect
  | noop
  | methodReload (l : LinkTag)
deriving DecidableEq, Repr

/-- `Book.owned` setter (models.py lines 166-173): look up the
`mark-as-owned-link` (when setting to owned) or `remove-from-owned-link`
(when setting to not owned); if the link is absent, return silently —
no request, no error — else trigger the link and reload. -/
def Book.ownedSet (b : BookLinks) (owned : Bool) : OwnedEffect :=
  match (if owned then b.markOwnedLink else b.removeOwnedLink) with
  | none => .noop
  | some l => .methodReload l

/-- C5 counterexample: the `Book.owned` setter, asked to mark as owned a
book whose markup has no owned-toggle link at all (the expected HTML
structure is absent), silently does nothing — it raises no `StoryGraphError`
and issues no request — refuting the claim that no accessor or mutator
silently does nothing when expected HTML structure is absent. -/
theorem owned_setter_silent_counterexample :
    Book.ownedSet ⟨none, none⟩ true = .noop := rfl

/-- C5 amended: operations that look up required HTML structure raise a
propagating `StoryGraphError` when it is absent — `DateAccuracy.parse` on
text matching no pattern, `Book.path` when no link href starts with
`/books/` — except the `Book.owned` setter, which silently does nothing
(no request, no error) whenever the owned-toggle link it needs is
missing. -/
theorem error_propagation_amended :
    (∀ s, s ≠ "No date" →
      tryDayPattern (tokenize s) = none →
      tryMonthPattern (tokenize s) = none →
      tryYearPattern (tokenize s) = none →
      DateAccuracy.parse s = .error (.sg (cantParseMsg s))) ∧
    (∀ links : List String,
      (∀ l ∈ links, startsB "/books/".toList l.toList = false) →
      Book.path links = .error (.sg "No self link")) ∧
    (∀ (b : BookLinks) (own : Bool),
      (if own then b.markOwnedLink else b.removeOwnedLink) = none →
      Book.ownedSet b own = .noop) := by
  refine ⟨?_, ?_, ?_⟩
  · intro s hs h1 h2 h3
    rw [DateAccuracy.parse, if_neg hs, h1, h2, h3]
  · intro links hnone
    rw [Book.path, List.find?_eq_none.mpr
      (fun l hl => by rw [hnone l hl]; simp)]
  · intro b own h
    rw [Book.ownedSet, h]

/-- Witness for `error_propagation_amended` at concrete inputs. -/
theorem error_propagation_amended_witness :
    DateAccuracy.parse "bogus" = .error (.sg (cantParseMsg "bogus")) ∧
    Book.path ["/profile/u", "/browse"] = .error (.sg "No self link") ∧
    Book.ownedSet ⟨none, some ⟨"/x", "post"⟩⟩ true = .noop :=
  ⟨error_propagation_amended.1 "bogus" (by decide) rfl rfl rfl,
   error_propagation_amended.2.1 ["/profile/u", "/browse"] (by decide),
   error_propagation_amended.2.2 ⟨none, some ⟨"/x", "post"⟩⟩ true rfl⟩

end Staff
